import Mathlib

/-!
# libMesh: 1D Hermite shape functions, the `QGauss` constructor, centroid partitioning

A shallow embedding of `src/fe/fe_hermite_shape_1D.C`, of the constructor in
`include/quadrature/quadrature_gauss.h` and of
`CentroidPartitioner::_do_partition` in `src/partitioning/centroid_partitioner.C`.

`Real` of the source is an arbitrary field `K`, so that every definition can be
evaluated over `ℚ` while the statements about derivatives are made over `ℝ`.
An `unsigned int` is a natural number; the one product of two `unsigned int`
that can exceed the word is reduced modulo `2 ^ 32`.
-/

namespace libMesh

/-! ## The raw polynomial family `FEHermite<1>` -/

/-- Number of values of an `unsigned int`. -/
def UINT_RANGE : Nat := 4294967296

/-- Modelled from the spec: `Utility::pow<4>` of `libmesh/utility.h` is not part of
the sources at hand; it is the fourth power by repeated multiplication that the
"product-rule expansions of that same closed form" call for. -/
def pow4 {K : Type} [Field K] (x : K) : K := x * x * x * x

/-- The variables of the loop `for (unsigned n=6; n != i; ++n)`. -/
structure LoopState (K : Type) where
  n : Nat
  xipower : K
  denominator : K

/-- One pass through the loop: `xipower *= xi; denominator *= (n+1);` and `++n`. -/
def loopBody {K : Type} [Field K] (xi : K) (s : LoopState K) : LoopState K :=
  { n := s.n + 1
    xipower := s.xipower * xi
    denominator := s.denominator * ((s.n + 1 : Nat) : K) }

/-- The loop `for (unsigned n=6; n != i; ++n) { ... }` from the state `s`. It is only
entered in the `default:` branch of the `switch (i)`, where `6 ≤ i`, so `n` runs
upwards to `i` without leaving the range of `unsigned`. -/
def rawLoop {K : Type} [Field K] (xi : K) (i : Nat) (s : LoopState K) (h : s.n ≤ i) :
    LoopState K :=
  if hn : s.n = i then s
  else rawLoop xi i (loopBody xi s) (Nat.succ_le_of_lt (Nat.lt_of_le_of_ne h hn))
termination_by i - s.n
decreasing_by
  simp only [loopBody]
  omega

/-- The state `Real denominator = 720., xipower = 1.` with `n = 6`. -/
def loopInit (K : Type) [Field K] : LoopState K :=
  { n := 6, xipower := 1, denominator := 720 }

/-- Value of `FEHermite<1>::hermite_raw_shape (i, xi)`. -/
def hermite_raw_shape {K : Type} [Field K] (i : Nat) (xi : K) : K :=
  match i with
  | 0 => 0.25 * (2 - 3 * xi + xi * xi * xi)
  | 1 => 0.25 * (2 + 3 * xi - xi * xi * xi)
  | 2 => 0.25 * (1 - xi - xi * xi + xi * xi * xi)
  | 3 => 0.25 * (-1 - xi + xi * xi + xi * xi * xi)
  | 4 => (xi * xi - 1) * (xi * xi - 1) / 24
  | 5 => xi * (xi * xi - 1) * (xi * xi - 1) / 120
  | k + 6 =>
    let s := rawLoop xi (k + 6) (loopInit K) (Nat.le_add_left 6 k)
    (xi * xi * s.xipower * (xi * xi - 1) * (xi * xi - 1)) / s.denominator

/-- Value of `FEHermite<1>::hermite_raw_shape_deriv (i, xi)`. The factor `(i-4)` is an
`unsigned int` (with `6 ≤ i`) converted to `Real`. -/
def hermite_raw_shape_deriv {K : Type} [Field K] (i : Nat) (xi : K) : K :=
  match i with
  | 0 => 0.75 * (-1 + xi * xi)
  | 1 => 0.75 * (1 - xi * xi)
  | 2 => 0.25 * (-1 - 2 * xi + 3 * xi * xi)
  | 3 => 0.25 * (-1 + 2 * xi + 3 * xi * xi)
  | 4 => 4 * xi * (xi * xi - 1) / 24
  | 5 => (4 * xi * xi * (xi * xi - 1) + (xi * xi - 1) * (xi * xi - 1)) / 120
  | k + 6 =>
    let s := rawLoop xi (k + 6) (loopInit K) (Nat.le_add_left 6 k)
    (4 * xi * xi * xi * s.xipower * (xi * xi - 1) +
      ((k + 6 - 4 : Nat) : K) * xi * s.xipower * (xi * xi - 1) * (xi * xi - 1)) / s.denominator

/-- Value of `FEHermite<1>::hermite_raw_shape_second_deriv (i, xi)`. In
`(8.*(i-4)+4.)` the difference is converted to `Real` before anything is done with
it; in `(i-4)*(i-5)*xipower` the product of the two `unsigned int` is formed first,
in `unsigned int`, and converted afterwards. -/
def hermite_raw_shape_second_deriv {K : Type} [Field K] (i : Nat) (xi : K) : K :=
  match i with
  | 0 => 1.5 * xi
  | 1 => -1.5 * xi
  | 2 => 0.5 * (-1 + 3 * xi)
  | 3 => 0.5 * (1 + 3 * xi)
  | 4 => (8 * xi * xi + 4 * (xi * xi - 1)) / 24
  | 5 => (8 * xi * xi * xi + 12 * xi * (xi * xi - 1)) / 120
  | k + 6 =>
    let s := rawLoop xi (k + 6) (loopInit K) (Nat.le_add_left 6 k)
    (8 * pow4 xi * s.xipower +
      (8 * ((k + 6 - 4 : Nat) : K) + 4) * xi * xi * s.xipower * (xi * xi - 1) +
      ((((k + 6 - 4) * (k + 6 - 5)) % UINT_RANGE : Nat) : K) * s.xipower *
        (xi * xi - 1) * (xi * xi - 1)) / s.denominator

/-- Modelled from the spec: the enumeration `ElemType` of `enum_elem_type.h` is not
part of the sources at hand; "an enumerated tag identifying a reference shape (e.g.,
1D two-node edge, three-node edge, and analogous 2D/3D tags)". -/
inductive ElemType where
  | EDGE2 | EDGE3 | EDGE4
  | TRI3 | TRI6
  | QUAD4 | QUAD8 | QUAD9
  | TET4 | TET10
  | HEX8 | HEX20 | HEX27
  | PRISM6 | PRISM15 | PRISM18
  | PYRAMID5
  | INVALID_ELEM
  deriving DecidableEq, Repr

/-- Modelled from the spec: the enumeration `Order` of `enum_order.h` is not part of
the sources at hand; "an integer-valued classification of polynomial
exactness/degree (e.g., INVALID, FIRST, SECOND, THIRD, … up to arbitrarily high)".
An order is the integer it stands for, the way `order + elem->p_level()` uses it. -/
abbrev Order : Type := Nat

/-- The order of degree one. -/
def FIRST : Order := 1

/-- The order of degree two. -/
def SECOND : Order := 2

/-- The order of degree three. -/
def THIRD : Order := 3

/-- Modelled from the spec: the class `Point` of `point.h` is not part of the sources
at hand; "a fixed-size tuple of up to 3 real coordinates; supports component
access". -/
structure Point (K : Type) where
  x : K
  y : K
  z : K

/-- The constructor call `Point(x)`: the other two coordinates are zero. -/
def Point.ofX {K : Type} [Field K] (x : K) : Point K :=
  { x := x, y := 0, z := 0 }

/-- Component access `p(k)`. -/
def Point.coord {K : Type} (p : Point K) (k : Nat) : K :=
  match k with
  | 0 => p.x
  | 1 => p.y
  | _ => p.z

/-- Modelled from the spec: the class `Elem` of `elem.h` is not part of the sources at
hand; an element "has a topology tag, a mapping Order, a p-refinement level
(additional order increment), and an ordered sequence of Point vertex/node locations
in physical space". These are `elem->type()`, `elem->default_order()`,
`elem->p_level()` and `elem->point(i)`. -/
structure Elem (K : Type) where
  type : ElemType
  default_order : Order
  p_level : Nat
  point : Nat → Point K

/-- Modelled from the spec: `FE<1,LAGRANGE>` is not part of the sources at hand; the
"Lagrange Mapping Evaluator interface (consumed)" with
`shape_derivative(topology, order, local_index, component, point) -> real`, and the
count `n_shape_functions(topology, order)` that `hermite_compute_coefs` asks for. -/
structure LagrangeFE (K : Type) where
  n_shape_functions : ElemType → Order → Nat
  shape_deriv : ElemType → Order → Nat → Nat → Point K → K

/-- The inner loop `for (int i = 0; i != n_mapping_shape_functions; ++i)` of
`hermite_compute_coefs` at the endpoint `dofpt`, from the counter `i` and the value
`dxdxi` reached so far. The count is the number of mapping functions of one element,
so the `int` counter runs through natural numbers. -/
def coefLoop {K : Type} [Field K] (L : LagrangeFE K) (elem : Elem K) (dofpt : Point K)
    (n_mapping_shape_functions : Nat) (i : Nat) (h : i ≤ n_mapping_shape_functions)
    (dxdxi : K) : K :=
  if hi : i = n_mapping_shape_functions then dxdxi
  else
    let ddxi := L.shape_deriv elem.type elem.default_order i 0 dofpt
    coefLoop L elem dofpt n_mapping_shape_functions (i + 1)
      (Nat.succ_le_of_lt (Nat.lt_of_le_of_ne h hi)) (dxdxi + (elem.point i).coord 0 * ddxi)
termination_by n_mapping_shape_functions - i

/-- The function `hermite_compute_coefs(elem, d1xd1x, d2xd2x)`; the pair returned is
`(d1xd1x, d2xd2x)`. The outer loop over the two entries of `dofpt` is written out. -/
def hermite_compute_coefs {K : Type} [Field K] (L : LagrangeFE K) (elem : Elem K) : K × K :=
  let mapping_order := elem.default_order
  let mapping_elem_type := elem.type
  let n_mapping_shape_functions := L.n_shape_functions mapping_elem_type mapping_order
  let dxdxi0 := coefLoop L elem (Point.ofX (-1)) n_mapping_shape_functions 0 (Nat.zero_le _) 0
  let dxdxi1 := coefLoop L elem (Point.ofX 1) n_mapping_shape_functions 0 (Nat.zero_le _) 0
  (dxdxi0, dxdxi1)

/-- The ways in which an entry point does not return: the `libmesh_error()` calls,
told apart by the message written just before them, and a failed assertion. -/
inductive FEError where
  | unsupported_element_type
  | unsupported_polynomial_order
  | assertion_failed
  | real_element_required
  deriving DecidableEq, Repr

/-- The element-based `FE<1,HERMITE>::shape(elem, order, i, p)`. The pointer `elem` is
an element, so `libmesh_assert(elem)` holds. The macro `libmesh_assert_less` of
`libmesh_common.h` is not part of the sources at hand: `asserts` says whether
assertions are compiled in. The sum `order + elem->p_level()` of an order and a
refinement level is a small number, far below the range of `unsigned int`. -/
def shape {K : Type} [Field K] (asserts : Bool) (L : LagrangeFE K) (elem : Elem K)
    (order : Order) (i : Nat) (p : Point K) : Except FEError K :=
  let d := hermite_compute_coefs L elem
  let d1xd1x := d.1
  let d2xd2x := d.2
  let type := elem.type
  let totalorder : Order := order + elem.p_level
  if totalorder = THIRD then
    match type with
    | ElemType.EDGE2 | ElemType.EDGE3 =>
      if asserts && !(decide (i < 4)) then Except.error FEError.assertion_failed
      else
        match i with
        | 0 => Except.ok (hermite_raw_shape 0 (p.coord 0))
        | 1 => Except.ok (d1xd1x * hermite_raw_shape 2 (p.coord 0))
        | 2 => Except.ok (hermite_raw_shape 1 (p.coord 0))
        | 3 => Except.ok (d2xd2x * hermite_raw_shape 3 (p.coord 0))
        | _ => Except.ok (hermite_raw_shape i (p.coord 0))
    | _ => Except.error FEError.unsupported_element_type
  else Except.error FEError.unsupported_polynomial_order

/-- The element-based `FE<1,HERMITE>::shape_deriv(elem, order, i, j, p)`; the fourth
argument has no name in the source and is not used. -/
def shape_deriv {K : Type} [Field K] (L : LagrangeFE K) (elem : Elem K)
    (order : Order) (i : Nat) (_j : Nat) (p : Point K) : Except FEError K :=
  let d := hermite_compute_coefs L elem
  let d1xd1x := d.1
  let d2xd2x := d.2
  let type := elem.type
  let totalorder : Order := order + elem.p_level
  if totalorder = THIRD then
    match type with
    | ElemType.EDGE2 | ElemType.EDGE3 =>
      match i with
      | 0 => Except.ok (hermite_raw_shape_deriv 0 (p.coord 0))
      | 1 => Except.ok (d1xd1x * hermite_raw_shape_deriv 2 (p.coord 0))
      | 2 => Except.ok (hermite_raw_shape_deriv 1 (p.coord 0))
      | 3 => Except.ok (d2xd2x * hermite_raw_shape_deriv 3 (p.coord 0))
      | _ => Except.ok (hermite_raw_shape_deriv i (p.coord 0))
    | _ => Except.error FEError.unsupported_element_type
  else Except.error FEError.unsupported_polynomial_order

/-- The element-based `FE<1,HERMITE>::shape_second_deriv(elem, order, i, j, p)`; the
fourth argument has no name in the source and is not used. -/
def shape_second_deriv {K : Type} [Field K] (L : LagrangeFE K) (elem : Elem K)
    (order : Order) (i : Nat) (_j : Nat) (p : Point K) : Except FEError K :=
  let d := hermite_compute_coefs L elem
  let d1xd1x := d.1
  let d2xd2x := d.2
  let type := elem.type
  let totalorder : Order := order + elem.p_level
  if totalorder = THIRD then
    match type with
    | ElemType.EDGE2 | ElemType.EDGE3 =>
      match i with
      | 0 => Except.ok (hermite_raw_shape_second_deriv 0 (p.coord 0))
      | 1 => Except.ok (d1xd1x * hermite_raw_shape_second_deriv 2 (p.coord 0))
      | 2 => Except.ok (hermite_raw_shape_second_deriv 1 (p.coord 0))
      | 3 => Except.ok (d2xd2x * hermite_raw_shape_second_deriv 3 (p.coord 0))
      | _ => Except.ok (hermite_raw_shape_second_deriv i (p.coord 0))
    | _ => Except.error FEError.unsupported_element_type
  else Except.error FEError.unsupported_polynomial_order

/-! ## The overloads without an element -/

/-- Modelled from the spec: the macro `libmesh_error()` of `libmesh_common.h` is not
part of the sources at hand; the "fatal diagnostic-and-abort path", "emitting a
diagnostic and aborting rather than returning a sentinel". What follows it is not
run. The argument records the message written before the call. -/
def libmesh_error {α : Type} (e : FEError) : Except FEError α :=
  Except.error e

/-- The overload `FE<1,HERMITE>::shape(const ElemType, const Order, const unsigned
int, const Point&)`: the message, `libmesh_error()`, and then `return 0.`. -/
def shape_by_type {K : Type} [Field K] (_t : ElemType) (_o : Order) (_i : Nat)
    (_p : Point K) : Except FEError K :=
  (libmesh_error FEError.real_element_required : Except FEError Unit) >>= fun _ =>
    Except.ok 0

/-- The overload `FE<1,HERMITE>::shape_deriv(const ElemType, const Order, const
unsigned int, const unsigned int, const Point&)`: the message, `libmesh_error()`,
and then `return 0.`. -/
def shape_deriv_by_type {K : Type} [Field K] (_t : ElemType) (_o : Order) (_i : Nat)
    (_j : Nat) (_p : Point K) : Except FEError K :=
  (libmesh_error FEError.real_element_required : Except FEError Unit) >>= fun _ =>
    Except.ok 0

/-! ## The constructor of `QGauss` -/

/-- Modelled from the spec: the base class `QBase` of `quadrature.h` is not part of
the sources at hand. A rule is requested "via `(dimension, topology, order)`": the
constructor `QBase(d, o)` keeps the dimension and the order. The points and weights
that `init` produces come from files that are not at hand either; what is kept of
`init` is the list of the topologies it has been called with. -/
structure QBase where
  _dim : Nat
  _order : Order
  init_calls : List ElemType

/-- The base constructor `QBase(d, o)`. -/
def QBase.ctor (d : Nat) (o : Order) : QBase :=
  { _dim := d, _order := o, init_calls := [] }

/-- A call `init(t)`. -/
def QBase.init (q : QBase) (t : ElemType) : QBase :=
  { q with init_calls := q.init_calls ++ [t] }

/-- The constructor `QGauss::QGauss(d, o) : QBase(d,o)` with its body
`if (_dim == 1) init(EDGE2);`. -/
def QGauss.ctor (d : Nat) (o : Order) : QBase :=
  let q := QBase.ctor d o
  if q._dim = 1 then q.init ElemType.EDGE2 else q

/-! ## `CentroidPartitioner::_do_partition` -/

/-- Modelled from the spec: `MeshBase` of `mesh_base.h` is not part of the sources at
hand; the mesh is an "element/vertex container", and the partitioner reads of an
element its `centroid() -> Point`. The elements are listed by their centroids;
`Elem*` is the position of an element in this list. -/
structure MeshBase (K : Type) where
  centroids : List (Point K)

/-- The count `mesh.n_elem()`. -/
def MeshBase.n_elem {K : Type} (mesh : MeshBase K) : Nat :=
  mesh.centroids.length

/-- The values of `sort_method()` that the `switch` names, and one for its
`default:` branch. -/
inductive CentroidSortMethod where
  | X | Y | Z | RADIAL | INVALID_METHOD
  deriving DecidableEq, Repr

/-- The object `*this`: the sort method and the vector `_elem_centroids` of pairs
`std::pair<Point, Elem*>`. -/
structure CentroidPartitioner (K : Type) where
  sort_method : CentroidSortMethod
  _elem_centroids : List (Point K × Nat)

/-- The ways in which `_do_partition` does not return: `libmesh_error()`, a failed
assertion, an integer division by zero, an index past the end of a vector. -/
inductive PartitionError where
  | libmesh_error
  | assertion_failed
  | division_by_zero
  | index_out_of_range
  deriving DecidableEq, Repr

/-- What `_do_partition` takes from other files: `Partitioner::single_partition`, by
the assignments `elem->processor_id() = id` it makes, as pairs `(elem, id)`;
`std::sort`, of which is used that it returns a rearrangement of the vector; the norm
`Point::size()`; the template `libmesh_cast_int<processor_id_type>` of
`libmesh_common.h`, which returns a processor id or does not return. -/
structure PartitionerEnv (K : Type) where
  single_partition : MeshBase K → List (Nat × Nat)
  sort : (Point K × Nat → Point K × Nat → Bool) → List (Point K × Nat) →
    List (Point K × Nat)
  sort_perm : ∀ cmp l, List.Perm (sort cmp l) l
  size : Point K → K
  libmesh_cast_int : Nat → Except PartitionError Nat

/-- The function `CentroidPartitioner::compute_centroids`: one pair
`(elem->centroid(), elem)` for each element of the mesh, in the order of the mesh. -/
def compute_centroids {K : Type} (mesh : MeshBase K) : List (Point K × Nat) :=
  mesh.centroids.enum.map (fun ie => (ie.2, ie.1))

/-- The comparison `CentroidPartitioner::sort_x`. -/
def sort_x {K : Type} [LinearOrder K] (lhs rhs : Point K × Nat) : Bool :=
  decide (lhs.1.coord 0 < rhs.1.coord 0)

/-- The comparison `CentroidPartitioner::sort_y`. -/
def sort_y {K : Type} [LinearOrder K] (lhs rhs : Point K × Nat) : Bool :=
  decide (lhs.1.coord 1 < rhs.1.coord 1)

/-- The comparison `CentroidPartitioner::sort_z`. -/
def sort_z {K : Type} [LinearOrder K] (lhs rhs : Point K × Nat) : Bool :=
  decide (lhs.1.coord 2 < rhs.1.coord 2)

/-- The comparison `CentroidPartitioner::sort_radial`, with the norm `size`. -/
def sort_radial {K : Type} [LinearOrder K] (size : Point K → K)
    (lhs rhs : Point K × Nat) : Bool :=
  decide (size lhs.1 < size rhs.1)

/-- The loop `for (dof_id_type i=0; i<n_elem; i++)` of `_do_partition`, from the
counter `i`; `writes` are the assignments `elem->processor_id() = id` made so far, as
pairs `(elem, id)`. The two arguments of `std::min` are worked out from left to
right. -/
def assignLoop {K : Type} (env : PartitionerEnv K)
    (_elem_centroids : List (Point K × Nat)) (n target_size n_elem : Nat) (i : Nat)
    (writes : List (Nat × Nat)) : Except PartitionError (List (Nat × Nat)) :=
  if _h : i < n_elem then
    match _elem_centroids[i]? with
    | none => Except.error PartitionError.index_out_of_range
    | some entry =>
      let elem := entry.2
      if target_size = 0 then Except.error PartitionError.division_by_zero
      else
        match env.libmesh_cast_int (i / target_size), env.libmesh_cast_int (n - 1) with
        | Except.ok a, Except.ok b =>
          assignLoop env _elem_centroids n target_size n_elem (i + 1)
            (writes ++ [(elem, min a b)])
        | Except.error e, _ => Except.error e
        | _, Except.error e => Except.error e
  else Except.ok writes
termination_by n_elem - i

/-- What `_do_partition` leaves behind: the vector `_elem_centroids` and the
assignments `elem->processor_id() = id` in the order in which they are made. -/
structure PartitionOutcome (K : Type) where
  _elem_centroids : List (Point K × Nat)
  writes : List (Nat × Nat)

/-- The function `CentroidPartitioner::_do_partition (mesh, n)`. `asserts` says
whether the `libmesh_assert_...` macros are compiled in. -/
def _do_partition {K : Type} [LinearOrder K] (asserts : Bool)
    (env : PartitionerEnv K) (self : CentroidPartitioner K) (mesh : MeshBase K) (n : Nat) :
    Except PartitionError (PartitionOutcome K) :=
  if n = 1 then
    Except.ok { _elem_centroids := self._elem_centroids, writes := env.single_partition mesh }
  else
    let centroids :=
      if mesh.n_elem ≠ self._elem_centroids.length then compute_centroids mesh
      else self._elem_centroids
    let sorted : Except PartitionError (List (Point K × Nat)) :=
      match self.sort_method with
      | CentroidSortMethod.X => Except.ok (env.sort sort_x centroids)
      | CentroidSortMethod.Y => Except.ok (env.sort sort_y centroids)
      | CentroidSortMethod.Z => Except.ok (env.sort sort_z centroids)
      | CentroidSortMethod.RADIAL => Except.ok (env.sort (sort_radial env.size) centroids)
      | CentroidSortMethod.INVALID_METHOD => Except.error PartitionError.libmesh_error
    match sorted with
    | Except.error e => Except.error e
    | Except.ok _elem_centroids =>
      if asserts && !(decide (n > 0)) then Except.error PartitionError.assertion_failed
      else
        let n_elem := mesh.n_elem
        if n = 0 then Except.error PartitionError.division_by_zero
        else
          let target_size := n_elem / n
          if asserts && !(decide (mesh.n_elem = _elem_centroids.length)) then
            Except.error PartitionError.assertion_failed
          else
            match assignLoop env _elem_centroids n target_size n_elem 0 [] with
            | Except.error e => Except.error e
            | Except.ok writes =>
              Except.ok { _elem_centroids := _elem_centroids, writes := writes }

/-! ## Elements to evaluate on -/

/-- The derivatives `-1/2` and `+1/2` of the two linear Lagrange functions on
`[-1, 1]`, for every element type and order, and the count `2`. -/
def linearLagrange : LagrangeFE ℚ :=
  { n_shape_functions := fun _ _ => 2
    shape_deriv := fun _ _ i _ _ => if i = 0 then -1 / 2 else 1 / 2 }

/-- An evaluator that reports no mapping shape function at all. -/
def emptyLagrange : LagrangeFE ℚ :=
  { n_shape_functions := fun _ _ => 0
    shape_deriv := fun _ _ _ _ _ => 0 }

/-- The two-node edge with nodes at `x = a` and `x = b`, of refinement level `lvl`. -/
def edge2 (a b : ℚ) (lvl : Nat) : Elem ℚ :=
  { type := ElemType.EDGE2
    default_order := FIRST
    p_level := lvl
    point := fun i => if i = 0 then Point.ofX a else Point.ofX b }

/-- A three-node triangle, all of whose nodes are at the origin. -/
def tri3 : Elem ℚ :=
  { type := ElemType.TRI3
    default_order := FIRST
    p_level := 0
    point := fun _ => Point.ofX 0 }

/-- An environment to evaluate in: `single_partition` gives every element the
processor `0`, `std::sort` is sorting by insertion, the norm is that of the sum of
the absolute values, and `processor_id_type` has `65536` values, checked by an
assertion. -/
def plainEnv : PartitionerEnv ℚ :=
  { single_partition := fun mesh => (List.range mesh.n_elem).map (fun e => (e, 0))
    sort := fun cmp l => List.insertionSort (fun a b => cmp b a = false) l
    sort_perm := fun cmp l => List.perm_insertionSort (fun a b => cmp b a = false) l
    size := fun p => |p.x| + |p.y| + |p.z|
    libmesh_cast_int := fun x =>
      if x < 65536 then Except.ok x else Except.error PartitionError.assertion_failed }

/-- The mesh of the elements with centroids at `x = 0, 1, ..., m - 1`. -/
def lineMesh (m : Nat) : MeshBase ℚ :=
  { centroids := (List.range m).map (fun k : Nat => Point.ofX (Nat.cast k)) }

/-- A partitioner that sorts by `x` and has no centroids yet. -/
def freshPartitioner : CentroidPartitioner ℚ :=
  { sort_method := CentroidSortMethod.X, _elem_centroids := [] }

theorem rawLoop_exit {K : Type} [Field K] (xi : K) (i : Nat) (s : LoopState K)
    (h : s.n ≤ i) (hn : s.n = i) : rawLoop xi i s h = s := by
  rw [rawLoop]
  simp [hn]

theorem rawLoop_continue {K : Type} [Field K] (xi : K) (i : Nat) (s : LoopState K)
    (h : s.n ≤ i) (hn : s.n ≠ i) :
    rawLoop xi i s h = rawLoop xi i (loopBody xi s)
      (Nat.succ_le_of_lt (Nat.lt_of_le_of_ne h hn)) := by
  rw [rawLoop]
  simp [hn]

/-- After the loop `n = i`, `xipower` has been multiplied by `xi ^ (i - n)` and
`denominator` by `(n+1) * ... * i`. -/
theorem rawLoop_closed {K : Type} [Field K] (xi : K) (i : Nat) :
    ∀ (d : Nat) (s : LoopState K) (h : s.n ≤ i), i - s.n = d →
      (rawLoop xi i s h).n = i ∧
      (rawLoop xi i s h).xipower = s.xipower * xi ^ (i - s.n) ∧
      (rawLoop xi i s h).denominator =
        s.denominator * ((∏ k in Finset.Ico s.n i, (k + 1) : Nat) : K) := by
  intro d
  induction d with
  | zero =>
    intro s h hd
    have hn : s.n = i := by omega
    rw [rawLoop_exit xi i s h hn]
    simp [hn]
  | succ d ih =>
    intro s h hd
    have hn : s.n ≠ i := by omega
    have hlt : s.n < i := Nat.lt_of_le_of_ne h hn
    rw [rawLoop_continue xi i s h hn]
    have hd2 : i - (loopBody xi s).n = d := by
      simp only [loopBody]
      omega
    obtain ⟨h1, h2, h3⟩ := ih (loopBody xi s) (Nat.succ_le_of_lt hlt) hd2
    refine ⟨h1, ?_, ?_⟩
    · rw [h2]
      simp only [loopBody]
      have he : i - s.n = (i - (s.n + 1)) + 1 := by omega
      rw [he, pow_succ]
      ring
    · rw [h3, Finset.prod_eq_prod_Ico_succ_bot hlt]
      simp only [loopBody]
      push_cast
      ring

/-- The loop is the body run `i - n` times, and it is not left earlier. -/
theorem rawLoop_iterate {K : Type} [Field K] (xi : K) (i : Nat) :
    ∀ (d : Nat) (s : LoopState K) (h : s.n ≤ i), i - s.n = d →
      rawLoop xi i s h = (loopBody xi)^[d] s ∧
      ∀ k, k < d → ((loopBody xi)^[k] s).n ≠ i := by
  intro d
  induction d with
  | zero =>
    intro s h hd
    have hn : s.n = i := by omega
    exact ⟨by rw [rawLoop_exit xi i s h hn]; rfl, fun k hk => absurd hk (Nat.not_lt_zero k)⟩
  | succ d ih =>
    intro s h hd
    have hn : s.n ≠ i := by omega
    have hlt : s.n < i := Nat.lt_of_le_of_ne h hn
    have hd2 : i - (loopBody xi s).n = d := by
      simp only [loopBody]
      omega
    obtain ⟨h1, h2⟩ := ih (loopBody xi s) (Nat.succ_le_of_lt hlt) hd2
    refine ⟨?_, ?_⟩
    · rw [rawLoop_continue xi i s h hn, h1, Function.iterate_succ_apply]
    · intro k hk
      cases k with
      | zero => simpa using hn
      | succ k =>
        rw [Function.iterate_succ_apply]
        exact h2 k (by omega)

/-- The product of the factors `n+1` for `n = 6 .. i-1`, times `720`, is `i!`. -/
theorem factorial_from_720 (i : Nat) (h : 6 ≤ i) :
    720 * (∏ k in Finset.Ico 6 i, (k + 1)) = i.factorial := by
  have h1 := Finset.prod_range_mul_prod_Ico (fun k => k + 1) h
  rw [Finset.prod_range_add_one_eq_factorial, Finset.prod_range_add_one_eq_factorial] at h1
  rw [← h1]
  rfl

/-- What the loop of the `default:` branch leaves behind for the index `k + 6`. -/
theorem rawLoop_init {K : Type} [Field K] (xi : K) (k : Nat) (h : (loopInit K).n ≤ k + 6) :
    (rawLoop xi (k + 6) (loopInit K) h).n = k + 6 ∧
    (rawLoop xi (k + 6) (loopInit K) h).xipower = xi ^ k ∧
    (rawLoop xi (k + 6) (loopInit K) h).denominator = ((k + 6).factorial : K) := by
  have hd : k + 6 - (loopInit K).n = k := by simp [loopInit]
  obtain ⟨h1, h2, h3⟩ := rawLoop_closed xi (k + 6) k (loopInit K) h hd
  refine ⟨h1, ?_, ?_⟩
  · rw [h2, hd]
    simp [loopInit]
  · rw [h3, ← factorial_from_720 (k + 6) (Nat.le_add_left 6 k)]
    simp [loopInit]

theorem hermite_raw_shape_default {K : Type} [Field K] (k : Nat) (xi : K) :
    hermite_raw_shape (k + 6) xi =
      xi ^ (k + 2) * (xi ^ 2 - 1) ^ 2 / ((k + 6).factorial : K) := by
  obtain ⟨_, h2, h3⟩ := rawLoop_init xi k (Nat.le_add_left 6 k)
  simp only [hermite_raw_shape, h2, h3]
  ring

theorem hermite_raw_shape_deriv_default {K : Type} [Field K] (k : Nat) (xi : K) :
    hermite_raw_shape_deriv (k + 6) xi =
      (4 * xi ^ (k + 3) * (xi ^ 2 - 1) + ((k : K) + 2) * xi ^ (k + 1) * (xi ^ 2 - 1) ^ 2) /
        ((k + 6).factorial : K) := by
  obtain ⟨_, h2, h3⟩ := rawLoop_init xi k (Nat.le_add_left 6 k)
  have hc : ((k + 6 - 4 : Nat) : K) = (k : K) + 2 := by
    have : k + 6 - 4 = k + 2 := by omega
    rw [this]
    push_cast
    ring
  simp only [hermite_raw_shape_deriv, h2, h3, hc]
  ring

/-- Derivative of a polynomial of degree at most five, written by its coefficients. -/
theorem hasDerivAt_quintic (a0 a1 a2 a3 a4 a5 x : ℝ) :
    HasDerivAt (fun y : ℝ => a0 + a1 * y + a2 * y ^ 2 + a3 * y ^ 3 + a4 * y ^ 4 + a5 * y ^ 5)
      (a1 + 2 * a2 * x + 3 * a3 * x ^ 2 + 4 * a4 * x ^ 3 + 5 * a5 * x ^ 4) x := by
  have h1 := (hasDerivAt_id' x).const_mul a1
  have h2 := (hasDerivAt_pow 2 x).const_mul a2
  have h3 := (hasDerivAt_pow 3 x).const_mul a3
  have h4 := (hasDerivAt_pow 4 x).const_mul a4
  have h5 := (hasDerivAt_pow 5 x).const_mul a5
  have h := (((((hasDerivAt_const x a0).add h1).add h2).add h3).add h4).add h5
  convert h using 1
  simp only [Nat.add_one_sub_one, Nat.reduceSub]
  push_cast
  ring

/-- Derivative of `(a y^(m+4) + b y^(m+2) + c y^m) / d`. -/
theorem hasDerivAt_three_powers (a b c d x : ℝ) (m : Nat) :
    HasDerivAt (fun y : ℝ => (a * y ^ (m + 4) + b * y ^ (m + 2) + c * y ^ m) / d)
      ((a * ((m : ℝ) + 4) * x ^ (m + 3) + b * ((m : ℝ) + 2) * x ^ (m + 1) +
        c * (m : ℝ) * x ^ (m - 1)) / d) x := by
  have h1 := (hasDerivAt_pow (m + 4) x).const_mul a
  have h2 := (hasDerivAt_pow (m + 2) x).const_mul b
  have h3 := (hasDerivAt_pow m x).const_mul c
  have h := ((h1.add h2).add h3).div_const d
  convert h using 1
  have e1 : m + 4 - 1 = m + 3 := by omega
  have e2 : m + 2 - 1 = m + 1 := by omega
  rw [e1, e2]
  push_cast
  ring

/-! ## The raw family: closed form, derivatives, endpoint values -/

/-- C1: for every index `i ≥ 4` and every real `xi`, `hermite_raw_shape(i, xi)` is
`xi^(i-4) * (xi^2 - 1)^2 / i!`; and for `i ≥ 6` the loop is its body run `i - 6`
times (the test `n != i` fails for the first time after exactly `i - 6` passes),
leaving `n = i`, `xipower = xi^(i-6)` and
`denominator = 720 * 7 * 8 * ... * i = i!`. -/
theorem hermite_raw_shape_closed_form (i : Nat) (hi : 4 ≤ i) (xi : ℝ) :
    hermite_raw_shape i xi = xi ^ (i - 4) * (xi ^ 2 - 1) ^ 2 / (i.factorial : ℝ) ∧
    ∀ h6 : 6 ≤ i,
      rawLoop xi i (loopInit ℝ) h6 = (loopBody xi)^[i - 6] (loopInit ℝ) ∧
      (∀ k, k < i - 6 → ((loopBody xi)^[k] (loopInit ℝ)).n ≠ i) ∧
      (rawLoop xi i (loopInit ℝ) h6).n = i ∧
      (rawLoop xi i (loopInit ℝ) h6).xipower = xi ^ (i - 6) ∧
      (rawLoop xi i (loopInit ℝ) h6).denominator =
        720 * ((∏ n in Finset.Ico 6 i, (n + 1) : Nat) : ℝ) ∧
      (rawLoop xi i (loopInit ℝ) h6).denominator = (i.factorial : ℝ) := by
  constructor
  · match i, hi with
    | 4, _ =>
      simp only [hermite_raw_shape, Nat.factorial]
      norm_num
      ring
    | 5, _ =>
      simp only [hermite_raw_shape, Nat.factorial]
      norm_num
      ring
    | k + 6, _ =>
      rw [hermite_raw_shape_default]
      have : k + 6 - 4 = k + 2 := by omega
      rw [this]
  · intro h6
    obtain ⟨k, rfl⟩ : ∃ k, i = k + 6 := ⟨i - 6, by omega⟩
    have hd : k + 6 - (loopInit ℝ).n = k := by simp [loopInit]
    obtain ⟨e1, e2⟩ := rawLoop_iterate xi (k + 6) k (loopInit ℝ) h6 hd
    obtain ⟨c1, c2, c3⟩ := rawLoop_init xi k h6
    have hk : k + 6 - 6 = k := by omega
    rw [hk]
    refine ⟨e1, e2, c1, c2, ?_, c3⟩
    rw [c3, ← factorial_from_720 (k + 6) (Nat.le_add_left 6 k)]
    push_cast
    ring

/-- The closed form of C1 at the index `7` and the point `2`, where the loop makes
one pass. -/
theorem hermite_raw_shape_closed_form_witness :
    4 ≤ 7 ∧
    hermite_raw_shape 7 (2 : ℝ) =
      (2 : ℝ) ^ (7 - 4) * ((2 : ℝ) ^ 2 - 1) ^ 2 / ((7 : Nat).factorial : ℝ) ∧
    rawLoop (2 : ℝ) 7 (loopInit ℝ) (Nat.le_add_left 6 1) =
      (loopBody (2 : ℝ))^[7 - 6] (loopInit ℝ) ∧
    (rawLoop (2 : ℝ) 7 (loopInit ℝ) (Nat.le_add_left 6 1)).xipower = (2 : ℝ) ^ (7 - 6) ∧
    (rawLoop (2 : ℝ) 7 (loopInit ℝ) (Nat.le_add_left 6 1)).denominator =
      ((7 : Nat).factorial : ℝ) :=
  ⟨by decide, (hermite_raw_shape_closed_form 7 (by decide) 2).1,
    ((hermite_raw_shape_closed_form 7 (by decide) 2).2 (Nat.le_add_left 6 1)).1,
    ((hermite_raw_shape_closed_form 7 (by decide) 2).2 (Nat.le_add_left 6 1)).2.2.2.1,
    ((hermite_raw_shape_closed_form 7 (by decide) 2).2 (Nat.le_add_left 6 1)).2.2.2.2.2⟩

/-- C2: for every index `i` and every real `xi`, `hermite_raw_shape_deriv(i, xi)` is
the derivative at `xi` of the polynomial `hermite_raw_shape(i, ·)`. -/
theorem hermite_raw_shape_deriv_is_derivative (i : Nat) (xi : ℝ) :
    HasDerivAt (fun x : ℝ => hermite_raw_shape i x) (hermite_raw_shape_deriv i xi) xi := by
  match i with
  | 0 =>
    convert hasDerivAt_quintic (1 / 2) (-3 / 4) 0 (1 / 4) 0 0 xi using 1
    · funext x
      simp only [hermite_raw_shape]
      norm_num
      ring
    · simp only [hermite_raw_shape_deriv]
      norm_num
      ring
  | 1 =>
    convert hasDerivAt_quintic (1 / 2) (3 / 4) 0 (-1 / 4) 0 0 xi using 1
    · funext x
      simp only [hermite_raw_shape]
      norm_num
      ring
    · simp only [hermite_raw_shape_deriv]
      norm_num
      ring
  | 2 =>
    convert hasDerivAt_quintic (1 / 4) (-1 / 4) (-1 / 4) (1 / 4) 0 0 xi using 1
    · funext x
      simp only [hermite_raw_shape]
      norm_num
      ring
    · simp only [hermite_raw_shape_deriv]
      norm_num
      ring
  | 3 =>
    convert hasDerivAt_quintic (-1 / 4) (-1 / 4) (1 / 4) (1 / 4) 0 0 xi using 1
    · funext x
      simp only [hermite_raw_shape]
      norm_num
      ring
    · simp only [hermite_raw_shape_deriv]
      norm_num
      ring
  | 4 =>
    convert hasDerivAt_quintic (1 / 24) 0 (-2 / 24) 0 (1 / 24) 0 xi using 1
    · funext x
      simp only [hermite_raw_shape]
      ring
    · simp only [hermite_raw_shape_deriv]
      ring
  | 5 =>
    convert hasDerivAt_quintic 0 (1 / 120) 0 (-2 / 120) 0 (1 / 120) xi using 1
    · funext x
      simp only [hermite_raw_shape]
      ring
    · simp only [hermite_raw_shape_deriv]
      ring
  | k + 6 =>
    convert hasDerivAt_three_powers 1 (-2) 1 ((k + 6).factorial : ℝ) xi (k + 2) using 1
    · funext x
      rw [hermite_raw_shape_default]
      ring
    · rw [hermite_raw_shape_deriv_default]
      have : k + 2 - 1 = k + 1 := by omega
      rw [this]
      push_cast
      ring

/-- C4: the cubic members at the endpoints `-1` and `+1`: the two value-type members
are `1` at their own endpoint and `0` at the other, the two derivative-type members
are `0` at both. -/
theorem hermite_raw_shape_cardinal :
    hermite_raw_shape 0 (-1 : ℝ) = 1 ∧ hermite_raw_shape 0 (1 : ℝ) = 0 ∧
    hermite_raw_shape 1 (-1 : ℝ) = 0 ∧ hermite_raw_shape 1 (1 : ℝ) = 1 ∧
    hermite_raw_shape 2 (-1 : ℝ) = 0 ∧ hermite_raw_shape 2 (1 : ℝ) = 0 ∧
    hermite_raw_shape 3 (-1 : ℝ) = 0 ∧ hermite_raw_shape 3 (1 : ℝ) = 0 := by
  simp only [hermite_raw_shape]
  norm_num

/-- C5: for every index `i ≥ 4` the raw value and the raw first derivative are `0` at
`-1` and at `+1`. -/
theorem hermite_bubble_vanishes (i : Nat) (hi : 4 ≤ i) :
    hermite_raw_shape i (-1 : ℝ) = 0 ∧ hermite_raw_shape i (1 : ℝ) = 0 ∧
    hermite_raw_shape_deriv i (-1 : ℝ) = 0 ∧ hermite_raw_shape_deriv i (1 : ℝ) = 0 := by
  match i, hi with
  | 4, _ =>
    simp only [hermite_raw_shape, hermite_raw_shape_deriv]
    norm_num
  | 5, _ =>
    simp only [hermite_raw_shape, hermite_raw_shape_deriv]
    norm_num
  | k + 6, _ =>
    simp only [hermite_raw_shape_default, hermite_raw_shape_deriv_default]
    norm_num

/-- The endpoint values of C5 at the index `9`, which takes the loop. -/
theorem hermite_bubble_vanishes_witness :
    4 ≤ 9 ∧ hermite_raw_shape 9 (-1 : ℝ) = 0 ∧ hermite_raw_shape 9 (1 : ℝ) = 0 ∧
    hermite_raw_shape_deriv 9 (-1 : ℝ) = 0 ∧ hermite_raw_shape_deriv 9 (1 : ℝ) = 0 :=
  ⟨by decide, hermite_bubble_vanishes 9 (by decide)⟩

theorem coefLoop_exit {K : Type} [Field K] (L : LagrangeFE K) (elem : Elem K)
    (dofpt : Point K) (n i : Nat) (h : i ≤ n) (acc : K) (hi : i = n) :
    coefLoop L elem dofpt n i h acc = acc := by
  rw [coefLoop]
  simp [hi]

theorem coefLoop_continue {K : Type} [Field K] (L : LagrangeFE K) (elem : Elem K)
    (dofpt : Point K) (n i : Nat) (h : i ≤ n) (acc : K) (hi : i ≠ n) :
    coefLoop L elem dofpt n i h acc =
      coefLoop L elem dofpt n (i + 1) (Nat.succ_le_of_lt (Nat.lt_of_le_of_ne h hi))
        (acc + (elem.point i).coord 0 * L.shape_deriv elem.type elem.default_order i 0 dofpt) := by
  rw [coefLoop]
  simp [hi]

/-- The inner loop adds the terms of the indices `i .. n-1` to what it starts from. -/
theorem coefLoop_sum {K : Type} [Field K] (L : LagrangeFE K) (elem : Elem K)
    (dofpt : Point K) (n : Nat) :
    ∀ (d i : Nat) (h : i ≤ n) (acc : K), n - i = d →
      coefLoop L elem dofpt n i h acc =
        acc + ∑ j in Finset.Ico i n,
          (elem.point j).coord 0 * L.shape_deriv elem.type elem.default_order j 0 dofpt := by
  intro d
  induction d with
  | zero =>
    intro i h acc hd
    have hi : i = n := by omega
    rw [coefLoop_exit L elem dofpt n i h acc hi]
    simp [hi]
  | succ d ih =>
    intro i h acc hd
    have hi : i ≠ n := by omega
    have hlt : i < n := Nat.lt_of_le_of_ne h hi
    rw [coefLoop_continue L elem dofpt n i h acc hi, ih (i + 1) _ _ (by omega),
      Finset.sum_eq_sum_Ico_succ_bot hlt]
    ring

/-- The pair returned by `hermite_compute_coefs`, as two sums. -/
theorem hermite_compute_coefs_eq {K : Type} [Field K] (L : LagrangeFE K) (elem : Elem K) :
    hermite_compute_coefs L elem =
      (∑ i in Finset.range (L.n_shape_functions elem.type elem.default_order),
          (elem.point i).coord 0 *
            L.shape_deriv elem.type elem.default_order i 0 (Point.ofX (-1)),
       ∑ i in Finset.range (L.n_shape_functions elem.type elem.default_order),
          (elem.point i).coord 0 *
            L.shape_deriv elem.type elem.default_order i 0 (Point.ofX 1)) := by
  simp only [hermite_compute_coefs]
  rw [coefLoop_sum L elem _ _ _ 0 _ 0 rfl, coefLoop_sum L elem _ _ _ 0 _ 0 rfl]
  simp only [Finset.range_eq_Ico, zero_add]

/-- The refinement level plays no part in the coefficients. -/
theorem hermite_compute_coefs_p_level {K : Type} [Field K] (L : LagrangeFE K)
    (elem : Elem K) (lvl : Nat) :
    hermite_compute_coefs L { elem with p_level := lvl } = hermite_compute_coefs L elem := by
  rw [hermite_compute_coefs_eq, hermite_compute_coefs_eq]

/-- C9: `hermite_compute_coefs(elem)` returns as `d1xd1x` the sum over
`i < n_mapping_shape_functions` of `elem.point(i)(0)` times the derivative of the
`i`-th Lagrange function at `-1`, and as `d2xd2x` the same sum at `+1`, as they are;
for the Lagrange derivatives `-1/2` and `+1/2` of a two-node edge both are
`(x1 - x0)/2`. -/
theorem hermite_compute_coefs_sum {K : Type} [Field K] (L : LagrangeFE K) (elem : Elem K) :
    hermite_compute_coefs L elem =
      (∑ i in Finset.range (L.n_shape_functions elem.type elem.default_order),
          (elem.point i).coord 0 *
            L.shape_deriv elem.type elem.default_order i 0 (Point.ofX (-1)),
       ∑ i in Finset.range (L.n_shape_functions elem.type elem.default_order),
          (elem.point i).coord 0 *
            L.shape_deriv elem.type elem.default_order i 0 (Point.ofX 1)) ∧
    (elem.type = ElemType.EDGE2 →
      L.n_shape_functions ElemType.EDGE2 elem.default_order = 2 →
      (∀ pt, L.shape_deriv ElemType.EDGE2 elem.default_order 0 0 pt = -1 / 2) →
      (∀ pt, L.shape_deriv ElemType.EDGE2 elem.default_order 1 0 pt = 1 / 2) →
      hermite_compute_coefs L elem =
        (((elem.point 1).coord 0 - (elem.point 0).coord 0) / 2,
         ((elem.point 1).coord 0 - (elem.point 0).coord 0) / 2)) := by
  have hsum := hermite_compute_coefs_eq L elem
  refine ⟨hsum, ?_⟩
  intro ht hn h0 h1
  rw [hsum, ht, hn]
  simp only [Finset.sum_range_succ, Finset.sum_range_zero, h0, h1, zero_add]
  refine Prod.ext ?_ ?_ <;> simp only <;> ring

/-- The coefficients of C9 for the edge from `0` to `2` with the linear Lagrange
derivatives: both are `(2 - 0)/2`. -/
theorem hermite_compute_coefs_sum_witness :
    (edge2 0 2 0).type = ElemType.EDGE2 ∧
    linearLagrange.n_shape_functions ElemType.EDGE2 (edge2 0 2 0).default_order = 2 ∧
    hermite_compute_coefs linearLagrange (edge2 0 2 0) =
      ((((edge2 0 2 0).point 1).coord 0 - ((edge2 0 2 0).point 0).coord 0) / 2,
       (((edge2 0 2 0).point 1).coord 0 - ((edge2 0 2 0).point 0).coord 0) / 2) :=
  ⟨rfl, rfl, (hermite_compute_coefs_sum linearLagrange (edge2 0 2 0)).2 rfl rfl
    (fun _ => rfl) (fun _ => rfl)⟩

/-! ## The element-based entry points -/

/-- What the three entry points return for the dofs `0 .. 3` of a supported element. -/
theorem shape_dofs_below_four {K : Type} [Field K] (asserts : Bool) (L : LagrangeFE K)
    (elem : Elem K) (order : Order) (j : Nat) (p : Point K)
    (htype : elem.type = ElemType.EDGE2 ∨ elem.type = ElemType.EDGE3)
    (horder : order + elem.p_level = THIRD) :
    (shape asserts L elem order 0 p = Except.ok (hermite_raw_shape 0 (p.coord 0)) ∧
     shape asserts L elem order 1 p =
       Except.ok ((hermite_compute_coefs L elem).1 * hermite_raw_shape 2 (p.coord 0)) ∧
     shape asserts L elem order 2 p = Except.ok (hermite_raw_shape 1 (p.coord 0)) ∧
     shape asserts L elem order 3 p =
       Except.ok ((hermite_compute_coefs L elem).2 * hermite_raw_shape 3 (p.coord 0))) ∧
    (shape_deriv L elem order 0 j p = Except.ok (hermite_raw_shape_deriv 0 (p.coord 0)) ∧
     shape_deriv L elem order 1 j p =
       Except.ok ((hermite_compute_coefs L elem).1 * hermite_raw_shape_deriv 2 (p.coord 0)) ∧
     shape_deriv L elem order 2 j p = Except.ok (hermite_raw_shape_deriv 1 (p.coord 0)) ∧
     shape_deriv L elem order 3 j p =
       Except.ok ((hermite_compute_coefs L elem).2 * hermite_raw_shape_deriv 3 (p.coord 0))) ∧
    (shape_second_deriv L elem order 0 j p =
       Except.ok (hermite_raw_shape_second_deriv 0 (p.coord 0)) ∧
     shape_second_deriv L elem order 1 j p =
       Except.ok ((hermite_compute_coefs L elem).1 *
         hermite_raw_shape_second_deriv 2 (p.coord 0)) ∧
     shape_second_deriv L elem order 2 j p =
       Except.ok (hermite_raw_shape_second_deriv 1 (p.coord 0)) ∧
     shape_second_deriv L elem order 3 j p =
       Except.ok ((hermite_compute_coefs L elem).2 *
         hermite_raw_shape_second_deriv 3 (p.coord 0))) := by
  rcases htype with ht | ht <;>
    cases asserts <;>
      simp [shape, shape_deriv, shape_second_deriv, ht, horder]

/-- C6: on an `EDGE2` or `EDGE3` element with `order + p_level == THIRD`, for the
value, the first and the second derivative alike, dof `0` is the raw member `0`,
dof `1` is `d1xd1x` times the raw member `2`, dof `2` is the raw member `1` and dof
`3` is `d2xd2x` times the raw member `3`, at `p(0)`, the pair `(d1xd1x, d2xd2x)`
being what `hermite_compute_coefs` returns for the element. -/
theorem shape_cubic_dofs {K : Type} [Field K] (asserts : Bool) (L : LagrangeFE K)
    (elem : Elem K) (order : Order) (j : Nat) (p : Point K)
    (htype : elem.type = ElemType.EDGE2 ∨ elem.type = ElemType.EDGE3)
    (horder : order + elem.p_level = THIRD) :
    (shape asserts L elem order 0 p = Except.ok (hermite_raw_shape 0 (p.coord 0)) ∧
     shape asserts L elem order 1 p =
       Except.ok ((hermite_compute_coefs L elem).1 * hermite_raw_shape 2 (p.coord 0)) ∧
     shape asserts L elem order 2 p = Except.ok (hermite_raw_shape 1 (p.coord 0)) ∧
     shape asserts L elem order 3 p =
       Except.ok ((hermite_compute_coefs L elem).2 * hermite_raw_shape 3 (p.coord 0))) ∧
    (shape_deriv L elem order 0 j p = Except.ok (hermite_raw_shape_deriv 0 (p.coord 0)) ∧
     shape_deriv L elem order 1 j p =
       Except.ok ((hermite_compute_coefs L elem).1 * hermite_raw_shape_deriv 2 (p.coord 0)) ∧
     shape_deriv L elem order 2 j p = Except.ok (hermite_raw_shape_deriv 1 (p.coord 0)) ∧
     shape_deriv L elem order 3 j p =
       Except.ok ((hermite_compute_coefs L elem).2 * hermite_raw_shape_deriv 3 (p.coord 0))) ∧
    (shape_second_deriv L elem order 0 j p =
       Except.ok (hermite_raw_shape_second_deriv 0 (p.coord 0)) ∧
     shape_second_deriv L elem order 1 j p =
       Except.ok ((hermite_compute_coefs L elem).1 *
         hermite_raw_shape_second_deriv 2 (p.coord 0)) ∧
     shape_second_deriv L elem order 2 j p =
       Except.ok (hermite_raw_shape_second_deriv 1 (p.coord 0)) ∧
     shape_second_deriv L elem order 3 j p =
       Except.ok ((hermite_compute_coefs L elem).2 *
         hermite_raw_shape_second_deriv 3 (p.coord 0))) :=
  shape_dofs_below_four asserts L elem order j p htype horder

/-- The dofs of C6 on the edge from `0` to `2` with `order == THIRD`, at the point
`1/2`. -/
theorem shape_cubic_dofs_witness :
    ((edge2 0 2 0).type = ElemType.EDGE2 ∨ (edge2 0 2 0).type = ElemType.EDGE3) ∧
    THIRD + (edge2 0 2 0).p_level = THIRD ∧
    shape true linearLagrange (edge2 0 2 0) THIRD 1 (Point.ofX (1 / 2)) =
      Except.ok ((hermite_compute_coefs linearLagrange (edge2 0 2 0)).1 *
        hermite_raw_shape 2 ((Point.ofX (1 / 2 : ℚ)).coord 0)) ∧
    shape_deriv linearLagrange (edge2 0 2 0) THIRD 3 0 (Point.ofX (1 / 2)) =
      Except.ok ((hermite_compute_coefs linearLagrange (edge2 0 2 0)).2 *
        hermite_raw_shape_deriv 3 ((Point.ofX (1 / 2 : ℚ)).coord 0)) :=
  ⟨Or.inl rfl, rfl,
    (shape_cubic_dofs true linearLagrange (edge2 0 2 0) THIRD 0 (Point.ofX (1 / 2))
      (Or.inl rfl) rfl).1.2.1,
    (shape_cubic_dofs true linearLagrange (edge2 0 2 0) THIRD 0 (Point.ofX (1 / 2))
      (Or.inl rfl) rfl).2.1.2.2.2⟩

/-- C7, as the code has it: on an `EDGE2` or `EDGE3` element with
`order + p_level == THIRD` and a dof index `i ≥ 4`, `shape` returns
`hermite_raw_shape(i, p(0))` unscaled when assertions are compiled out, and stops at
`libmesh_assert_less (i, 4)` without a value when they are compiled in. -/
theorem shape_high_index {K : Type} [Field K] (asserts : Bool) (L : LagrangeFE K)
    (elem : Elem K) (order : Order) (i : Nat) (p : Point K)
    (htype : elem.type = ElemType.EDGE2 ∨ elem.type = ElemType.EDGE3)
    (horder : order + elem.p_level = THIRD) (hi : 4 ≤ i) :
    shape asserts L elem order i p =
      if asserts then Except.error FEError.assertion_failed
      else Except.ok (hermite_raw_shape i (p.coord 0)) := by
  obtain ⟨k, rfl⟩ : ∃ k, i = k + 4 := ⟨i - 4, by omega⟩
  rcases htype with ht | ht <;>
    cases asserts <;>
      simp [shape, ht, horder]

/-- The two outcomes of C7 for the dof index `4` on the edge from `0` to `2`. -/
theorem shape_high_index_witness :
    ((edge2 0 2 0).type = ElemType.EDGE2 ∨ (edge2 0 2 0).type = ElemType.EDGE3) ∧
    THIRD + (edge2 0 2 0).p_level = THIRD ∧ 4 ≤ 4 ∧
    shape false linearLagrange (edge2 0 2 0) THIRD 4 (Point.ofX 0) =
      if false then Except.error FEError.assertion_failed
      else Except.ok (hermite_raw_shape 4 ((Point.ofX (0 : ℚ)).coord 0)) :=
  ⟨Or.inl rfl, rfl, Nat.le_refl 4,
    shape_high_index false linearLagrange (edge2 0 2 0) THIRD 4 (Point.ofX 0)
      (Or.inl rfl) rfl (Nat.le_refl 4)⟩

/-- C7 as it is written fails with assertions compiled in: for the dof index `4` on
the edge from `0` to `2` with `order == THIRD`, `shape` takes the assertion and does
not return `hermite_raw_shape(4, 0)`. -/
theorem shape_high_index_asserts :
    shape true linearLagrange (edge2 0 2 0) THIRD 4 (Point.ofX 0) =
      Except.error FEError.assertion_failed ∧
    shape true linearLagrange (edge2 0 2 0) THIRD 4 (Point.ofX 0) ≠
      Except.ok (hermite_raw_shape 4 ((Point.ofX (0 : ℚ)).coord 0)) := by
  have h : shape true linearLagrange (edge2 0 2 0) THIRD 4 (Point.ofX 0) =
      Except.error FEError.assertion_failed := by
    simp [shape, edge2, THIRD]
  exact ⟨h, by rw [h]; exact fun hh => by cases hh⟩

/-- C8: when `order + p_level != THIRD`, or the element type is neither `EDGE2` nor
`EDGE3`, each of `shape`, `shape_deriv` and `shape_second_deriv` ends in
`libmesh_error()` and returns no number; the outcome depends on `order` and
`p_level` through their sum only (order `FIRST` with `p_level` 2 is supported on
`EDGE2`); and with `order + p_level == THIRD` on `EDGE2` or `EDGE3` and `i < 4` each
of the three returns a number. -/
theorem shape_support {K : Type} [Field K] (asserts : Bool) (L : LagrangeFE K)
    (elem : Elem K) (order : Order) (i j : Nat) (p : Point K) :
    ((order + elem.p_level ≠ THIRD ∨
        (elem.type ≠ ElemType.EDGE2 ∧ elem.type ≠ ElemType.EDGE3)) →
      shape asserts L elem order i p =
        Except.error (if order + elem.p_level = THIRD then FEError.unsupported_element_type
          else FEError.unsupported_polynomial_order) ∧
      shape_deriv L elem order i j p =
        Except.error (if order + elem.p_level = THIRD then FEError.unsupported_element_type
          else FEError.unsupported_polynomial_order) ∧
      shape_second_deriv L elem order i j p =
        Except.error (if order + elem.p_level = THIRD then FEError.unsupported_element_type
          else FEError.unsupported_polynomial_order)) ∧
    (∀ (order2 : Order) (lvl2 : Nat), order2 + lvl2 = order + elem.p_level →
      shape asserts L { elem with p_level := lvl2 } order2 i p = shape asserts L elem order i p ∧
      shape_deriv L { elem with p_level := lvl2 } order2 i j p = shape_deriv L elem order i j p ∧
      shape_second_deriv L { elem with p_level := lvl2 } order2 i j p =
        shape_second_deriv L elem order i j p) ∧
    (elem.type = ElemType.EDGE2 → elem.p_level = 2 → i < 4 →
      ∃ v, shape asserts L elem FIRST i p = Except.ok v) ∧
    ((elem.type = ElemType.EDGE2 ∨ elem.type = ElemType.EDGE3) →
      order + elem.p_level = THIRD → i < 4 →
      ∃ v1 v2 v3, shape asserts L elem order i p = Except.ok v1 ∧
        shape_deriv L elem order i j p = Except.ok v2 ∧
        shape_second_deriv L elem order i j p = Except.ok v3) := by
  refine ⟨?_, ?_, ?_, ?_⟩
  · intro hbad
    by_cases ho : order + elem.p_level = THIRD
    · rcases hbad with hb | ⟨h2, h3⟩
      · exact absurd ho hb
      · simp only [shape, shape_deriv, shape_second_deriv, ho, if_true]
        cases ht : elem.type <;> simp_all
    · simp [shape, shape_deriv, shape_second_deriv, ho]
  · intro order2 lvl2 hsum
    simp [shape, shape_deriv, shape_second_deriv, hermite_compute_coefs_p_level, hsum]
  · intro ht hl hi
    have ho : FIRST + elem.p_level = THIRD := by rw [hl]; rfl
    have h := (shape_dofs_below_four asserts L elem FIRST j p (Or.inl ht) ho).1
    match i, hi with
    | 0, _ => exact ⟨_, h.1⟩
    | 1, _ => exact ⟨_, h.2.1⟩
    | 2, _ => exact ⟨_, h.2.2.1⟩
    | 3, _ => exact ⟨_, h.2.2.2⟩
  · intro ht ho hi
    match i, hi with
    | 0, _ =>
      exact ⟨_, _, _, (shape_dofs_below_four asserts L elem order j p ht ho).1.1,
        (shape_dofs_below_four asserts L elem order j p ht ho).2.1.1,
        (shape_dofs_below_four asserts L elem order j p ht ho).2.2.1⟩
    | 1, _ =>
      exact ⟨_, _, _, (shape_dofs_below_four asserts L elem order j p ht ho).1.2.1,
        (shape_dofs_below_four asserts L elem order j p ht ho).2.1.2.1,
        (shape_dofs_below_four asserts L elem order j p ht ho).2.2.2.1⟩
    | 2, _ =>
      exact ⟨_, _, _, (shape_dofs_below_four asserts L elem order j p ht ho).1.2.2.1,
        (shape_dofs_below_four asserts L elem order j p ht ho).2.1.2.2.1,
        (shape_dofs_below_four asserts L elem order j p ht ho).2.2.2.2.1⟩
    | 3, _ =>
      exact ⟨_, _, _, (shape_dofs_below_four asserts L elem order j p ht ho).1.2.2.2,
        (shape_dofs_below_four asserts L elem order j p ht ho).2.1.2.2.2,
        (shape_dofs_below_four asserts L elem order j p ht ho).2.2.2.2.2⟩

/-- The error paths of C8: order `SECOND` on the edge from `0` to `2`, and order
`THIRD` on a triangle. -/
theorem shape_support_witness :
    (SECOND + (edge2 0 2 0).p_level ≠ THIRD ∨
      ((edge2 0 2 0).type ≠ ElemType.EDGE2 ∧ (edge2 0 2 0).type ≠ ElemType.EDGE3)) ∧
    shape true linearLagrange (edge2 0 2 0) SECOND 0 (Point.ofX 0) =
      Except.error (if SECOND + (edge2 0 2 0).p_level = THIRD
        then FEError.unsupported_element_type
        else FEError.unsupported_polynomial_order) ∧
    (THIRD + tri3.p_level ≠ THIRD ∨
      (tri3.type ≠ ElemType.EDGE2 ∧ tri3.type ≠ ElemType.EDGE3)) ∧
    shape_deriv linearLagrange tri3 THIRD 0 0 (Point.ofX 0) =
      Except.error (if THIRD + tri3.p_level = THIRD
        then FEError.unsupported_element_type
        else FEError.unsupported_polynomial_order) ∧
    (edge2 0 2 2).type = ElemType.EDGE2 ∧ (edge2 0 2 2).p_level = 2 ∧ 1 < 4 ∧
    ∃ v, shape true linearLagrange (edge2 0 2 2) FIRST 1 (Point.ofX 0) = Except.ok v :=
  ⟨Or.inl (by decide),
    ((shape_support true linearLagrange (edge2 0 2 0) SECOND 0 0 (Point.ofX 0)).1
      (Or.inl (by decide))).1,
    Or.inr ⟨by decide, by decide⟩,
    ((shape_support true linearLagrange tri3 THIRD 0 0 (Point.ofX 0)).1
      (Or.inr ⟨by decide, by decide⟩)).2.1,
    rfl, rfl, by decide,
    (shape_support true linearLagrange (edge2 0 2 2) FIRST 1 0 (Point.ofX 0)).2.2.1
      rfl rfl (by decide)⟩

/-- C10, as the code has it: when the element reports zero mapping shape functions,
the inner loop of `hermite_compute_coefs` is not entered and the pair returned is
`d1xd1x = d2xd2x = 0`; nothing is asserted about the count. -/
theorem hermite_compute_coefs_zero_count {K : Type} [Field K] (L : LagrangeFE K)
    (elem : Elem K) (hzero : L.n_shape_functions elem.type elem.default_order = 0) :
    hermite_compute_coefs L elem = (0, 0) := by
  rw [hermite_compute_coefs_eq L elem, hzero]
  simp

/-- The coefficients of C10 for a triangle on which no mapping shape function is
reported. -/
theorem hermite_compute_coefs_zero_count_witness :
    emptyLagrange.n_shape_functions tri3.type tri3.default_order = 0 ∧
    hermite_compute_coefs emptyLagrange tri3 = (0, 0) :=
  ⟨rfl, hermite_compute_coefs_zero_count emptyLagrange tri3 rfl⟩

/-- C10 as it is written fails: on the edge from `0` to `2`, with an evaluator that
reports zero mapping shape functions, `hermite_compute_coefs` returns the pair
`(0, 0)`, and `shape` goes on to return the number `0` for the dof `1`. -/
theorem hermite_compute_coefs_zero_count_returns :
    emptyLagrange.n_shape_functions (edge2 0 2 0).type (edge2 0 2 0).default_order = 0 ∧
    hermite_compute_coefs emptyLagrange (edge2 0 2 0) = (0, 0) ∧
    shape true emptyLagrange (edge2 0 2 0) THIRD 1 (Point.ofX 0) = Except.ok 0 := by
  have h : hermite_compute_coefs emptyLagrange (edge2 0 2 0) = (0, 0) := by
    simp only [hermite_compute_coefs, emptyLagrange]
    rw [coefLoop_exit _ _ _ _ _ _ _ rfl, coefLoop_exit _ _ _ _ _ _ _ rfl]
  refine ⟨rfl, h, ?_⟩
  rw [(shape_dofs_below_four true emptyLagrange (edge2 0 2 0) THIRD 0 (Point.ofX 0)
    (Or.inl rfl) rfl).1.2.1, h]
  simp

/-! ## Unit coefficients, and the edge from `0` to `2` -/

/-- The coefficients of the edge from `a` to `b` with the linear Lagrange derivatives. -/
theorem hermite_compute_coefs_edge2 (a b : ℚ) (lvl : Nat) :
    hermite_compute_coefs linearLagrange (edge2 a b lvl) = ((b - a) / 2, (b - a) / 2) := by
  rw [hermite_compute_coefs_eq]
  simp only [linearLagrange, edge2, Finset.sum_range_succ, Finset.sum_range_zero, Point.ofX,
    Point.coord]
  refine Prod.ext ?_ ?_ <;> simp <;> ring

/-- C11, as the code has it: on a supported two-node edge whose mapping coefficients
are `d1xd1x = d2xd2x = 1`, at every point `p`, `shape(elem, THIRD, 0, p)` is the raw
member `0` and `shape(elem, THIRD, 2, p)` is the raw member `1`, and for `i = 1` and
`i = 3` the value is the raw member `2` and `3`. -/
theorem shape_unit_coefs {K : Type} [Field K] (asserts : Bool) (L : LagrangeFE K)
    (elem : Elem K) (p : Point K) (htype : elem.type = ElemType.EDGE2)
    (horder : THIRD + elem.p_level = THIRD)
    (hcoefs : hermite_compute_coefs L elem = (1, 1)) :
    shape asserts L elem THIRD 0 p = Except.ok (hermite_raw_shape 0 (p.coord 0)) ∧
    shape asserts L elem THIRD 2 p = Except.ok (hermite_raw_shape 1 (p.coord 0)) ∧
    shape asserts L elem THIRD 1 p = Except.ok (hermite_raw_shape 2 (p.coord 0)) ∧
    shape asserts L elem THIRD 3 p = Except.ok (hermite_raw_shape 3 (p.coord 0)) := by
  obtain ⟨h0, h1, h2, h3⟩ :=
    (shape_dofs_below_four asserts L elem THIRD 0 p (Or.inl htype) horder).1
  rw [hcoefs] at h1 h3
  simp only [one_mul] at h1 h3
  exact ⟨h0, h2, h1, h3⟩

/-- The four dofs of C11 on the edge from `0` to `2`, whose coefficients are `1`. -/
theorem shape_unit_coefs_witness :
    (edge2 0 2 0).type = ElemType.EDGE2 ∧ THIRD + (edge2 0 2 0).p_level = THIRD ∧
    hermite_compute_coefs linearLagrange (edge2 0 2 0) = (1, 1) ∧
    shape true linearLagrange (edge2 0 2 0) THIRD 0 (Point.ofX (1 / 3)) =
      Except.ok (hermite_raw_shape 0 ((Point.ofX (1 / 3 : ℚ)).coord 0)) ∧
    shape true linearLagrange (edge2 0 2 0) THIRD 2 (Point.ofX (1 / 3)) =
      Except.ok (hermite_raw_shape 1 ((Point.ofX (1 / 3 : ℚ)).coord 0)) ∧
    shape true linearLagrange (edge2 0 2 0) THIRD 1 (Point.ofX (1 / 3)) =
      Except.ok (hermite_raw_shape 2 ((Point.ofX (1 / 3 : ℚ)).coord 0)) ∧
    shape true linearLagrange (edge2 0 2 0) THIRD 3 (Point.ofX (1 / 3)) =
      Except.ok (hermite_raw_shape 3 ((Point.ofX (1 / 3 : ℚ)).coord 0)) :=
  ⟨rfl, rfl, by rw [hermite_compute_coefs_edge2]; norm_num,
    shape_unit_coefs true linearLagrange (edge2 0 2 0) (Point.ofX (1 / 3)) rfl rfl
      (by rw [hermite_compute_coefs_edge2]; norm_num)⟩

/-- C11 as it is written fails for `i = 2`: on the edge from `0` to `2`, whose
coefficients are `d1xd1x = d2xd2x = 1`, `shape(elem, THIRD, 2, Point(0))` is
`hermite_raw_shape(1, 0) = 1/2`, which is not `hermite_raw_shape(2, 0) = 1/4`. -/
theorem shape_unit_coefs_dof_two :
    hermite_compute_coefs linearLagrange (edge2 0 2 0) = (1, 1) ∧
    shape true linearLagrange (edge2 0 2 0) THIRD 2 (Point.ofX 0) = Except.ok (1 / 2) ∧
    hermite_raw_shape 2 ((Point.ofX (0 : ℚ)).coord 0) = 1 / 4 ∧
    shape true linearLagrange (edge2 0 2 0) THIRD 2 (Point.ofX 0) ≠
      Except.ok (hermite_raw_shape 2 ((Point.ofX (0 : ℚ)).coord 0)) := by
  have hc : hermite_compute_coefs linearLagrange (edge2 0 2 0) = (1, 1) := by
    rw [hermite_compute_coefs_edge2]
    norm_num
  have hs : shape true linearLagrange (edge2 0 2 0) THIRD 2 (Point.ofX 0) =
      Except.ok (1 / 2) := by
    rw [(shape_dofs_below_four true linearLagrange (edge2 0 2 0) THIRD 0 (Point.ofX 0)
      (Or.inl rfl) rfl).1.2.2.1]
    norm_num [hermite_raw_shape, Point.ofX, Point.coord]
  have hr : hermite_raw_shape 2 ((Point.ofX (0 : ℚ)).coord 0) = 1 / 4 := by
    norm_num [hermite_raw_shape, Point.ofX, Point.coord]
  refine ⟨hc, hs, hr, ?_⟩
  rw [hs, hr]
  intro h
  have h2 : (1 / 2 : ℚ) = 1 / 4 := by
    injection h
  norm_num at h2

/-- The dof `0` never reads the nodes of the element. -/
theorem shape_dof_zero_nodes {K : Type} [Field K] (asserts : Bool) (L : LagrangeFE K)
    (elem : Elem K) (order : Order) (pts : Nat → Point K) (p : Point K) :
    shape asserts L { elem with point := pts } order 0 p = shape asserts L elem order 0 p := by
  cases asserts <;> simp [shape]

/-- C12: on an `EDGE2` element of `p_level` 0 with nodes at `x = 0` and `x = 2` and the
linear Lagrange derivatives `-1/2` and `+1/2`, `hermite_compute_coefs` gives
`d1xd1x = d2xd2x = 1` and `shape(elem, THIRD, 0, Point(0))` is
`hermite_raw_shape(0, 0) = 0.5`; and `shape(elem, THIRD, 0, p)` is the same whatever
the nodes of the element are. -/
theorem shape_end_to_end {K : Type} [Field K] [CharZero K] (asserts : Bool)
    (L : LagrangeFE K) (elem : Elem K)
    (htype : elem.type = ElemType.EDGE2) (hlevel : elem.p_level = 0)
    (hcount : L.n_shape_functions ElemType.EDGE2 elem.default_order = 2)
    (hd0 : ∀ pt, L.shape_deriv ElemType.EDGE2 elem.default_order 0 0 pt = -1 / 2)
    (hd1 : ∀ pt, L.shape_deriv ElemType.EDGE2 elem.default_order 1 0 pt = 1 / 2)
    (hx0 : (elem.point 0).coord 0 = 0) (hx1 : (elem.point 1).coord 0 = 2) :
    hermite_compute_coefs L elem = (1, 1) ∧
    shape asserts L elem THIRD 0 (Point.ofX 0) = Except.ok (hermite_raw_shape 0 0) ∧
    hermite_raw_shape 0 (0 : K) = 0.5 ∧
    ∀ (pts : Nat → Point K) (p : Point K),
      shape asserts L { elem with point := pts } THIRD 0 p = shape asserts L elem THIRD 0 p := by
  refine ⟨?_, ?_, ?_, fun pts p => shape_dof_zero_nodes asserts L elem THIRD pts p⟩
  · rw [hermite_compute_coefs_eq, htype, hcount]
    simp only [Finset.sum_range_succ, Finset.sum_range_zero, hd0, hd1, hx0, hx1, zero_add]
    refine Prod.ext ?_ ?_ <;> norm_num
  · have ho : THIRD + elem.p_level = THIRD := by rw [hlevel]; rfl
    rw [(shape_dofs_below_four asserts L elem THIRD 0 (Point.ofX 0) (Or.inl htype) ho).1.1]
    rfl
  · simp only [hermite_raw_shape]
    norm_num

/-- The scenario of C12 on the edge from `0` to `2`. -/
theorem shape_end_to_end_witness :
    (edge2 0 2 0).type = ElemType.EDGE2 ∧ (edge2 0 2 0).p_level = 0 ∧
    ((edge2 0 2 0).point 0).coord 0 = 0 ∧ ((edge2 0 2 0).point 1).coord 0 = 2 ∧
    hermite_compute_coefs linearLagrange (edge2 0 2 0) = (1, 1) ∧
    shape true linearLagrange (edge2 0 2 0) THIRD 0 (Point.ofX 0) =
      Except.ok (hermite_raw_shape 0 0) ∧
    hermite_raw_shape 0 (0 : ℚ) = 0.5 :=
  ⟨rfl, rfl, rfl, rfl,
    (shape_end_to_end true linearLagrange (edge2 0 2 0) rfl rfl rfl (fun _ => rfl)
      (fun _ => rfl) rfl rfl).1,
    (shape_end_to_end true linearLagrange (edge2 0 2 0) rfl rfl rfl (fun _ => rfl)
      (fun _ => rfl) rfl rfl).2.1,
    (shape_end_to_end true linearLagrange (edge2 0 2 0) rfl rfl rfl (fun _ => rfl)
      (fun _ => rfl) rfl rfl).2.2.1⟩

/-! ## The overloads without an element, and the constructor of `QGauss` -/

/-- C13: the overloads `shape(ElemType, Order, i, Point)` and
`shape_deriv(ElemType, Order, i, j, Point)` end in `libmesh_error()` for every input;
the `return 0.` after it is not reached and no number is returned. -/
theorem shape_by_type_fails {K : Type} [Field K] (t : ElemType) (o : Order) (i j : Nat)
    (p : Point K) :
    shape_by_type t o i p = Except.error FEError.real_element_required ∧
    shape_deriv_by_type t o i j p = Except.error FEError.real_element_required ∧
    (∀ v : K, shape_by_type t o i p ≠ Except.ok v) ∧
    (∀ v : K, shape_deriv_by_type t o i j p ≠ Except.ok v) := by
  have h1 : shape_by_type t o i p = Except.error FEError.real_element_required := rfl
  have h2 : shape_deriv_by_type t o i j p = Except.error FEError.real_element_required := rfl
  refine ⟨h1, h2, ?_, ?_⟩
  · intro v h
    rw [h1] at h
    cases h
  · intro v h
    rw [h2] at h
    cases h

/-- C15: for every order `o`, `QGauss(1, o)` calls `init` once, with `EDGE2`, and
`QGauss(2, o)` and `QGauss(3, o)` call no `init`. -/
theorem QGauss_init_calls (o : Order) :
    (QGauss.ctor 1 o).init_calls = [ElemType.EDGE2] ∧
    (QGauss.ctor 2 o).init_calls = [] ∧
    (QGauss.ctor 3 o).init_calls = [] := by
  refine ⟨rfl, rfl, rfl⟩

/-! ## Higher dofs and endpoint conditions of the derivatives -/

/-- What `shape_deriv` and `shape_second_deriv` return for a dof `i ≥ 4` of a
supported element. -/
theorem shape_deriv_dofs_from_four {K : Type} [Field K] (L : LagrangeFE K)
    (elem : Elem K) (order : Order) (i j : Nat) (p : Point K)
    (htype : elem.type = ElemType.EDGE2 ∨ elem.type = ElemType.EDGE3)
    (horder : order + elem.p_level = THIRD) (hi : 4 ≤ i) :
    shape_deriv L elem order i j p = Except.ok (hermite_raw_shape_deriv i (p.coord 0)) ∧
    shape_second_deriv L elem order i j p =
      Except.ok (hermite_raw_shape_second_deriv i (p.coord 0)) := by
  obtain ⟨k, rfl⟩ : ∃ k, i = k + 4 := ⟨i - 4, by omega⟩
  rcases htype with ht | ht <;>
    simp [shape_deriv, shape_second_deriv, ht, horder]

/-- C16: on an `EDGE2` or `EDGE3` element with `order + p_level == THIRD` and a dof
index `i ≥ 4`, `shape_deriv` is `hermite_raw_shape_deriv(i, p(0))` and
`shape_second_deriv` is `hermite_raw_shape_second_deriv(i, p(0))`, with no factor
`d1xd1x` or `d2xd2x`, and the same whatever the nodes of the element are. -/
theorem shape_deriv_high_index {K : Type} [Field K] (L : LagrangeFE K)
    (elem : Elem K) (order : Order) (i j : Nat) (p : Point K)
    (htype : elem.type = ElemType.EDGE2 ∨ elem.type = ElemType.EDGE3)
    (horder : order + elem.p_level = THIRD) (hi : 4 ≤ i) :
    shape_deriv L elem order i j p = Except.ok (hermite_raw_shape_deriv i (p.coord 0)) ∧
    shape_second_deriv L elem order i j p =
      Except.ok (hermite_raw_shape_second_deriv i (p.coord 0)) ∧
    ∀ pts : Nat → Point K,
      shape_deriv L { elem with point := pts } order i j p = shape_deriv L elem order i j p ∧
      shape_second_deriv L { elem with point := pts } order i j p =
        shape_second_deriv L elem order i j p := by
  obtain ⟨h1, h2⟩ := shape_deriv_dofs_from_four L elem order i j p htype horder hi
  refine ⟨h1, h2, fun pts => ?_⟩
  obtain ⟨g1, g2⟩ :=
    shape_deriv_dofs_from_four L { elem with point := pts } order i j p htype horder hi
  rw [g1, g2, h1, h2]
  exact ⟨rfl, rfl⟩

/-- The derivatives of C16 for the dof `7` on the edge from `0` to `2`. -/
theorem shape_deriv_high_index_witness :
    ((edge2 0 2 0).type = ElemType.EDGE2 ∨ (edge2 0 2 0).type = ElemType.EDGE3) ∧
    THIRD + (edge2 0 2 0).p_level = THIRD ∧ 4 ≤ 7 ∧
    shape_deriv linearLagrange (edge2 0 2 0) THIRD 7 0 (Point.ofX (1 / 2)) =
      Except.ok (hermite_raw_shape_deriv 7 ((Point.ofX (1 / 2 : ℚ)).coord 0)) ∧
    shape_second_deriv linearLagrange (edge2 0 2 0) THIRD 7 0 (Point.ofX (1 / 2)) =
      Except.ok (hermite_raw_shape_second_deriv 7 ((Point.ofX (1 / 2 : ℚ)).coord 0)) :=
  ⟨Or.inl rfl, rfl, by decide,
    (shape_deriv_high_index linearLagrange (edge2 0 2 0) THIRD 7 0 (Point.ofX (1 / 2))
      (Or.inl rfl) rfl (by decide)).1,
    (shape_deriv_high_index linearLagrange (edge2 0 2 0) THIRD 7 0 (Point.ofX (1 / 2))
      (Or.inl rfl) rfl (by decide)).2.1⟩

/-- C17: on a supported element, `shape_deriv` of the dof `1` at `Point(-1)` is
`d1xd1x` and of the dof `3` at `Point(+1)` is `d2xd2x`; of the dof `1` at `+1`, of the
dof `3` at `-1` and of the dofs `0` and `2` at both endpoints it is `0`. In the raw
family: `hermite_raw_shape_deriv(2,-1) = hermite_raw_shape_deriv(3,+1) = 1` and the
other six endpoint derivatives of the members `0 .. 3` are `0`. -/
theorem shape_deriv_endpoints {K : Type} [Field K] [CharZero K] (L : LagrangeFE K)
    (elem : Elem K) (order : Order)
    (htype : elem.type = ElemType.EDGE2 ∨ elem.type = ElemType.EDGE3)
    (horder : order + elem.p_level = THIRD) :
    (shape_deriv L elem order 1 0 (Point.ofX (-1)) =
        Except.ok (hermite_compute_coefs L elem).1 ∧
     shape_deriv L elem order 3 0 (Point.ofX 1) =
        Except.ok (hermite_compute_coefs L elem).2 ∧
     shape_deriv L elem order 1 0 (Point.ofX 1) = Except.ok 0 ∧
     shape_deriv L elem order 3 0 (Point.ofX (-1)) = Except.ok 0 ∧
     shape_deriv L elem order 0 0 (Point.ofX (-1)) = Except.ok 0 ∧
     shape_deriv L elem order 0 0 (Point.ofX 1) = Except.ok 0 ∧
     shape_deriv L elem order 2 0 (Point.ofX (-1)) = Except.ok 0 ∧
     shape_deriv L elem order 2 0 (Point.ofX 1) = Except.ok 0) ∧
    (hermite_raw_shape_deriv 2 (-1 : K) = 1 ∧ hermite_raw_shape_deriv 3 (1 : K) = 1 ∧
     hermite_raw_shape_deriv 2 (1 : K) = 0 ∧ hermite_raw_shape_deriv 3 (-1 : K) = 0 ∧
     hermite_raw_shape_deriv 0 (-1 : K) = 0 ∧ hermite_raw_shape_deriv 0 (1 : K) = 0 ∧
     hermite_raw_shape_deriv 1 (-1 : K) = 0 ∧ hermite_raw_shape_deriv 1 (1 : K) = 0) := by
  have r : hermite_raw_shape_deriv 2 (-1 : K) = 1 ∧ hermite_raw_shape_deriv 3 (1 : K) = 1 ∧
      hermite_raw_shape_deriv 2 (1 : K) = 0 ∧ hermite_raw_shape_deriv 3 (-1 : K) = 0 ∧
      hermite_raw_shape_deriv 0 (-1 : K) = 0 ∧ hermite_raw_shape_deriv 0 (1 : K) = 0 ∧
      hermite_raw_shape_deriv 1 (-1 : K) = 0 ∧ hermite_raw_shape_deriv 1 (1 : K) = 0 := by
    simp only [hermite_raw_shape_deriv]
    norm_num
  obtain ⟨r1, r2, r3, r4, r5, r6, r7, r8⟩ := r
  have hm := (shape_dofs_below_four true L elem order 0 (Point.ofX (-1)) htype horder).2.1
  have hp := (shape_dofs_below_four true L elem order 0 (Point.ofX 1) htype horder).2.1
  have cm : (Point.ofX (-1 : K)).coord 0 = -1 := rfl
  have cp : (Point.ofX (1 : K)).coord 0 = 1 := rfl
  rw [cm] at hm
  rw [cp] at hp
  rw [r1, r4, r5, r7] at hm
  rw [r2, r3, r6, r8] at hp
  simp only [mul_one, mul_zero] at hm hp
  exact ⟨⟨hm.2.1, hp.2.2.2, hp.2.1, hm.2.2.2, hm.1, hp.1, hm.2.2.1, hp.2.2.1⟩,
    r1, r2, r3, r4, r5, r6, r7, r8⟩

/-- The endpoint derivatives of C17 on the edge from `0` to `6`, whose coefficients
are `3`. -/
theorem shape_deriv_endpoints_witness :
    ((edge2 0 6 0).type = ElemType.EDGE2 ∨ (edge2 0 6 0).type = ElemType.EDGE3) ∧
    THIRD + (edge2 0 6 0).p_level = THIRD ∧
    hermite_compute_coefs linearLagrange (edge2 0 6 0) = (3, 3) ∧
    shape_deriv linearLagrange (edge2 0 6 0) THIRD 1 0 (Point.ofX (-1)) =
      Except.ok (hermite_compute_coefs linearLagrange (edge2 0 6 0)).1 ∧
    shape_deriv linearLagrange (edge2 0 6 0) THIRD 3 0 (Point.ofX 1) =
      Except.ok (hermite_compute_coefs linearLagrange (edge2 0 6 0)).2 ∧
    shape_deriv linearLagrange (edge2 0 6 0) THIRD 1 0 (Point.ofX 1) = Except.ok 0 :=
  ⟨Or.inl rfl, rfl, by rw [hermite_compute_coefs_edge2]; norm_num,
    (shape_deriv_endpoints linearLagrange (edge2 0 6 0) THIRD (Or.inl rfl) rfl).1.1,
    (shape_deriv_endpoints linearLagrange (edge2 0 6 0) THIRD (Or.inl rfl) rfl).1.2.1,
    (shape_deriv_endpoints linearLagrange (edge2 0 6 0) THIRD (Or.inl rfl) rfl).1.2.2.1⟩

/-- C18: for every real `xi` the two value-type cubic members add up to `1`, the
combination `-raw(0) + raw(1) + raw(2) + raw(3)` is `xi`, and the first derivatives of
the two value-type members add up to `0`. -/
theorem hermite_partition_of_unity (xi : ℝ) :
    hermite_raw_shape 0 xi + hermite_raw_shape 1 xi = 1 ∧
    -hermite_raw_shape 0 xi + hermite_raw_shape 1 xi + hermite_raw_shape 2 xi +
      hermite_raw_shape 3 xi = xi ∧
    hermite_raw_shape_deriv 0 xi + hermite_raw_shape_deriv 1 xi = 0 := by
  simp only [hermite_raw_shape, hermite_raw_shape_deriv]
  refine ⟨?_, ?_, ?_⟩ <;> norm_num <;> ring

/-! ## The blocks of `CentroidPartitioner::_do_partition` -/

theorem assignLoop_div_zero {K : Type} (env : PartitionerEnv K)
    (cents : List (Point K × Nat)) (n n_elem i : Nat) (writes : List (Nat × Nat))
    (h : i < n_elem) (hlen : i < cents.length) :
    assignLoop env cents n 0 n_elem i writes =
      Except.error PartitionError.division_by_zero := by
  rw [assignLoop]
  simp [h, List.getElem?_eq_getElem hlen]

/-- The vector that is sorted has one entry for each element of the mesh. -/
theorem centroids_length {K : Type} (self : CentroidPartitioner K) (mesh : MeshBase K) :
    (if mesh.n_elem ≠ self._elem_centroids.length then compute_centroids mesh
      else self._elem_centroids).length = mesh.n_elem := by
  by_cases h : mesh.n_elem = self._elem_centroids.length
  · rw [if_neg (not_not.mpr h)]
    exact h.symm
  · rw [if_pos h]
    simp [compute_centroids, MeshBase.n_elem]

/-- With a sort method that the `switch` names and a number of partitions other than
`0` and `1`, the function comes to its loop with a rearrangement of the centroids. -/
theorem do_partition_reaches_loop {K : Type} [LinearOrder K] (asserts : Bool)
    (env : PartitionerEnv K) (self : CentroidPartitioner K) (mesh : MeshBase K) (n : Nat)
    (hmethod : self.sort_method ≠ CentroidSortMethod.INVALID_METHOD)
    (h0 : n ≠ 0) (h1 : n ≠ 1) :
    ∃ sorted : List (Point K × Nat),
      sorted.length = mesh.n_elem ∧
      _do_partition asserts env self mesh n =
        match assignLoop env sorted n (mesh.n_elem / n) mesh.n_elem 0 [] with
        | Except.error e => Except.error e
        | Except.ok writes => Except.ok { _elem_centroids := sorted, writes := writes } := by
  have hpos : 0 < n := Nat.pos_of_ne_zero h0
  have hlen := centroids_length self mesh
  unfold _do_partition
  simp only [h1, if_false]
  generalize (if mesh.n_elem ≠ self._elem_centroids.length then compute_centroids mesh
      else self._elem_centroids) = cents at hlen ⊢
  have hs : ∀ cmp, (env.sort cmp cents).length = mesh.n_elem :=
    fun cmp => ((env.sort_perm cmp cents).length_eq).trans hlen
  cases hm : self.sort_method with
  | X =>
    exact ⟨env.sort sort_x cents, hs _, by cases asserts <;> simp [h0, hpos, hs]⟩
  | Y =>
    exact ⟨env.sort sort_y cents, hs _, by cases asserts <;> simp [h0, hpos, hs]⟩
  | Z =>
    exact ⟨env.sort sort_z cents, hs _, by cases asserts <;> simp [h0, hpos, hs]⟩
  | RADIAL =>
    exact ⟨env.sort (sort_radial env.size) cents, hs _,
      by cases asserts <;> simp [h0, hpos, hs]⟩
  | INVALID_METHOD => exact absurd hm hmethod

theorem lineMesh_n_elem (m : Nat) : (lineMesh m).n_elem = m := by
  simp [lineMesh, MeshBase.n_elem]

/-- C20: for `n > 0` the divisor `target_size = n_elem / n` is non-zero exactly when
`n ≤ n_elem`; and for every `n ≥ 2` with `1 ≤ n_elem < n` (and a sort method that the
`switch` names) it is `0`, the first pass through the loop divides by it, with
assertions compiled in or not, and `_do_partition` ends in the division by zero. -/
theorem do_partition_division_by_zero {K : Type} [LinearOrder K] (asserts : Bool)
    (env : PartitionerEnv K) (self : CentroidPartitioner K) (mesh : MeshBase K) (n : Nat) :
    (0 < n → (mesh.n_elem / n ≠ 0 ↔ n ≤ mesh.n_elem)) ∧
    (self.sort_method ≠ CentroidSortMethod.INVALID_METHOD → 2 ≤ n → 1 ≤ mesh.n_elem →
      mesh.n_elem < n →
      mesh.n_elem / n = 0 ∧
      (∀ (cents : List (Point K × Nat)) (writes : List (Nat × Nat)),
        cents.length = mesh.n_elem →
        assignLoop env cents n (mesh.n_elem / n) mesh.n_elem 0 writes =
          Except.error PartitionError.division_by_zero) ∧
      _do_partition asserts env self mesh n =
        Except.error PartitionError.division_by_zero) := by
  constructor
  · intro hpos
    constructor
    · intro h
      by_contra hlt
      exact h (Nat.div_eq_of_lt (not_le.mp hlt))
    · intro hle
      exact Nat.pos_iff_ne_zero.mp (Nat.div_pos hle hpos)
  · intro hmethod h2 h1 hlt
    have hts : mesh.n_elem / n = 0 := Nat.div_eq_of_lt hlt
    have hloop : ∀ (cents : List (Point K × Nat)) (writes : List (Nat × Nat)),
        cents.length = mesh.n_elem →
        assignLoop env cents n (mesh.n_elem / n) mesh.n_elem 0 writes =
          Except.error PartitionError.division_by_zero := by
      intro cents writes hlen
      rw [hts]
      exact assignLoop_div_zero env cents n mesh.n_elem 0 writes (by omega) (by omega)
    refine ⟨hts, hloop, ?_⟩
    obtain ⟨sorted, hlen, hrun⟩ :=
      do_partition_reaches_loop asserts env self mesh n hmethod (by omega) (by omega)
    rw [hrun, hloop sorted [] hlen]

/-- The division by zero of C20 for a mesh of one element and two partitions. -/
theorem do_partition_division_by_zero_witness :
    freshPartitioner.sort_method ≠ CentroidSortMethod.INVALID_METHOD ∧
    2 ≤ 2 ∧ 1 ≤ (lineMesh 1).n_elem ∧ (lineMesh 1).n_elem < 2 ∧
    (lineMesh 1).n_elem / 2 = 0 ∧
    _do_partition true plainEnv freshPartitioner (lineMesh 1) 2 =
      Except.error PartitionError.division_by_zero ∧
    _do_partition false plainEnv freshPartitioner (lineMesh 1) 2 =
      Except.error PartitionError.division_by_zero :=
  ⟨by decide, by decide, by rw [lineMesh_n_elem], by rw [lineMesh_n_elem]; decide,
    ((do_partition_division_by_zero true plainEnv freshPartitioner (lineMesh 1) 2).2
      (by decide) (by decide) (by rw [lineMesh_n_elem]) (by rw [lineMesh_n_elem]; decide)).1,
    ((do_partition_division_by_zero true plainEnv freshPartitioner (lineMesh 1) 2).2
      (by decide) (by decide) (by rw [lineMesh_n_elem]) (by rw [lineMesh_n_elem]; decide)).2.2,
    ((do_partition_division_by_zero false plainEnv freshPartitioner (lineMesh 1) 2).2
      (by decide) (by decide) (by rw [lineMesh_n_elem]) (by rw [lineMesh_n_elem]; decide)).2.2⟩

end libMesh
